import Mathlib

/-!
Verification of the Cup Ranking Aggregation Engine of the ov-cup repository.

The client-side part of the engine is `generateRanking` in `src/js/lib.jsx`:
it walks the list of athlete entries delivered by the `cup-cgi` backend
(already carrying a `totalScore` and already sorted by it, descending),
assigns each entry a display place using a tie rule driven by a sentinel
`previousScore = 5001`, and recomputes per-event `drop` flags from the
best-N-of-all-positive-scores selection rule (`N` is the `events` parameter).

Scores are non-negative numbers (spec §3); an absent score means the athlete
did not score at that event, which we model with `Option Nat`.

The server-side stages (Totalizer, the descending sort, and the request-level
validation of `N`) live in the Rust `cup-cgi` binary, which is not part of the
source tree under verification; those are modelled from the spec and marked as
such in their doc comments.
-/

/-- An event result as delivered to `generateRanking`: event identifier,
score (absent when the athlete did not score) and single-event placing
(absent when not applicable). Mirrors the `scores` array items of the JSON
response consumed by `src/js/lib.jsx` (`eventId`, `score`, `place`). -/
structure EventResult where
  eventId : Nat
  score : Option Nat
  place : Option Nat
deriving DecidableEq, Repr

/-- An event result after the Selector ran: the same fields plus the `drop`
flag added by `generateRanking` (`{ ...result, drop }`). -/
structure AnnotatedResult where
  eventId : Nat
  score : Option Nat
  place : Option Nat
  drop : Bool
deriving DecidableEq, Repr

/-- One input entry of `generateRanking` (`data` array item): athlete name,
club, the total score computed by the backend, and the ordered per-event
results. -/
structure Entry where
  name : String
  club : String
  totalScore : Nat
  scores : List EventResult
deriving DecidableEq, Repr

/-- One output entry of `generateRanking` (`{ ...entry, scores: results,
place: thisPlace }`): the input fields, the drop-annotated results and the
display place string. This is the spec's `CupStandingEntry`. -/
structure CupStandingEntry where
  name : String
  club : String
  totalScore : Nat
  scores : List AnnotatedResult
  place : String
deriving DecidableEq, Repr

/-- The numeric place label: JS template literal `${place}.`. -/
def placeLabel (place : Nat) : String :=
  toString place ++ "."

/-- The positive scores of an entry, in input order:
`entry.scores.map((result) => result.score).filter((result) => result > 0)`.
An absent (`undefined`) score fails the `> 0` test, so only present positive
values survive. -/
def positiveScores (scores : List EventResult) : List Nat :=
  (scores.filterMap (fun result => result.score)).filter (fun s => 0 < s)

/-- The retained top-N score values:
`... .sort((x, y) => y - x).slice(0, events)` — the positive scores sorted
descending, truncated to the first `events` values. -/
def nonZeroResults (events : Nat) (scores : List EventResult) : List Nat :=
  ((positiveScores scores).insertionSort (fun x y => y ≤ x)).take events

/-- The drop flag for one score value, given the retained values:
`if (!nonZeroResults.includes(result.score) && result.score > 0) drop = true`.
An absent score is never in `nonZeroResults` and fails `> 0`, so it is never
dropped. -/
def dropFlag (nonZero : List Nat) : Option Nat → Bool
  | none => false
  | some s => !(nonZero.contains s) && decide (0 < s)

/-- The drop-annotated results of one entry:
`entry.scores.map((result) => { ... return { ...result, drop }; })`. -/
def results (events : Nat) (scores : List EventResult) : List AnnotatedResult :=
  scores.map (fun result =>
    { eventId := result.eventId, score := result.score, place := result.place,
      drop := dropFlag (nonZeroResults events scores) result.score })

/-- The loop body of `generateRanking`, threading the two mutable variables
`place` (position counter, incremented for every entry) and `previousScore`
(the previous entry's total, initially the sentinel `5001`). -/
def rankLoop (events : Nat) : Nat → Nat → List Entry → List CupStandingEntry
  | _, _, [] => []
  | place, previousScore, entry :: rest =>
    { name := entry.name, club := entry.club, totalScore := entry.totalScore,
      scores := results events entry.scores,
      place := if entry.totalScore < previousScore
               then placeLabel (place + 1) else "-" }
      :: rankLoop events (place + 1) entry.totalScore rest

/-- `generateRanking` from `src/js/lib.jsx`: `place` starts at `0`,
`previousScore` at the sentinel `5001`. -/
def generateRanking (events : Nat) (data : List Entry) : List CupStandingEntry :=
  rankLoop events 0 5001 data

example :
    (generateRanking 5
      [⟨"A", "x", 40, []⟩, ⟨"B", "y", 40, []⟩, ⟨"C", "z", 30, []⟩]).map
        (fun e => e.place) = ["1.", "-", "3."] := by decide

example :
    (generateRanking 5
      [⟨"A", "x", 50, []⟩, ⟨"B", "y", 40, []⟩, ⟨"C", "z", 30, []⟩]).map
        (fun e => e.place) = ["1.", "2.", "3."] := by decide

example :
    (results 3 [⟨1, some 100, some 1⟩, ⟨2, some 90, some 2⟩, ⟨3, some 80, some 1⟩,
      ⟨4, some 70, some 4⟩]).map (fun r => r.drop) = [false, false, false, true] := by decide

/-- An athlete's raw data before the backend computed a total: the spec's
`AthleteRawEntry` (§3): identity plus the ordered per-event results. -/
structure AthleteRawEntry where
  name : String
  club : String
  scores : List EventResult
deriving DecidableEq, Repr

/-- Modelled from the spec: the Totalizer stage (§4.2) lives in the Rust
`cup-cgi` backend, which is not part of the JS sources; it sums the scores of
all non-dropped event results of an athlete, absent scores contributing
nothing, with the dropped set determined by the Selector rule that the JS
code duplicates. -/
def totalizer (events : Nat) (scores : List EventResult) : Nat :=
  (((results events scores).filter (fun r => !r.drop)).filterMap
    (fun r => r.score)).sum

/-- The backend's per-athlete output: the raw entry with its computed total,
forming one item of the JSON `data` array consumed by `generateRanking`. -/
def toEntry (events : Nat) (a : AthleteRawEntry) : Entry :=
  { name := a.name, club := a.club, totalScore := totalizer events a.scores,
    scores := a.scores }

/-- Modelled from the spec: the Sorter stage (§4.3) orders entries by total
score descending; it runs in the `cup-cgi` backend before the JS code sees
the data. Entries with equal totals keep their relative order (stable sort,
§4.3), which `List.insertionSort` provides. -/
def sortByTotalDesc (standing : List Entry) : List Entry :=
  standing.insertionSort (fun a b => b.totalScore ≤ a.totalScore)

/-- The whole engine on raw athlete data: totalize, sort descending, then
run `generateRanking` from `src/js/lib.jsx`. The first two stages are
modelled from the spec (they live in the backend binary), the last is the
source's code. -/
def engine (events : Nat) (raw : List AthleteRawEntry) : List CupStandingEntry :=
  generateRanking events (sortByTotalDesc (raw.map (toEntry events)))

/-- The error taxonomy of spec §7 as far as the engine's own input checks
reach: a negative `N` is `invalidInput`. -/
inductive EngineError where
  | invalidInput
deriving DecidableEq, Repr

/-- Modelled from the spec: the request-level handling of `N` (§6, §7(a))
is done by the `cup-cgi` transport, not by the JS sources; the engine
enforces only `N ≥ 0`, does not clamp, and surfaces a negative `N` as a
request-level `invalidInput` failure, while an empty standing stays a valid
`ok` result. -/
def handleRequest (events : Int) (raw : List AthleteRawEntry) :
    Except EngineError (List CupStandingEntry) :=
  if events < 0 then Except.error EngineError.invalidInput
  else Except.ok (engine events.toNat raw)

instance : IsTotal Nat (fun x y => y ≤ x) :=
  ⟨fun a b => Or.symm (Nat.le_total a b)⟩

instance : IsTrans Nat (fun x y => y ≤ x) :=
  ⟨fun _ _ _ h1 h2 => Nat.le_trans h2 h1⟩

instance : IsTotal Entry (fun a b => b.totalScore ≤ a.totalScore) :=
  ⟨fun a b => Or.symm (Nat.le_total a.totalScore b.totalScore)⟩

instance : IsTrans Entry (fun a b => b.totalScore ≤ a.totalScore) :=
  ⟨fun _ _ _ h1 h2 => Nat.le_trans h2 h1⟩

lemma rankLoop_length (events p prev : Nat) (data : List Entry) :
    (rankLoop events p prev data).length = data.length := by
  induction data generalizing p prev with
  | nil => rfl
  | cons e rest ih => simp [rankLoop, ih]

lemma generateRanking_length (events : Nat) (data : List Entry) :
    (generateRanking events data).length = data.length :=
  rankLoop_length events 0 5001 data

lemma rankLoop_get (events : Nat) (data : List Entry) (p prev : Nat)
    (i : Nat) (h : i < data.length) :
    (rankLoop events p prev data).get
        ⟨i, by rw [rankLoop_length]; exact h⟩ =
      { name := (data.get ⟨i, h⟩).name, club := (data.get ⟨i, h⟩).club,
        totalScore := (data.get ⟨i, h⟩).totalScore,
        scores := results events (data.get ⟨i, h⟩).scores,
        place := if (data.get ⟨i, h⟩).totalScore <
                    (if i = 0 then prev
                     else (data.get ⟨i - 1, by omega⟩).totalScore)
                 then placeLabel (p + i + 1) else "-" } := by
  induction data generalizing p prev i with
  | nil => exact absurd h (Nat.not_lt_zero i)
  | cons e rest ih =>
    cases i with
    | zero => simp [rankLoop]
    | succ j =>
      have hj : j < rest.length := Nat.lt_of_succ_lt_succ h
      have step := ih (p + 1) e.totalScore j hj
      simp only [rankLoop, List.get_cons_succ]
      rw [step]
      cases j with
      | zero => simp [Nat.add_comm, Nat.add_assoc, Nat.add_left_comm]
      | succ k =>
        have harith : p + 1 + (k + 1) + 1 = p + (k + 1 + 1) + 1 := by omega
        simp [harith, Nat.add_sub_cancel]

lemma rankLoop_getElem (events p prev : Nat) (data : List Entry) (i : Nat) :
    (rankLoop events p prev data)[i]? =
      (data[i]?).map (fun e =>
        { name := e.name, club := e.club, totalScore := e.totalScore,
          scores := results events e.scores,
          place := if e.totalScore <
                      (if i = 0 then prev
                       else ((data[i - 1]?).map
                         (fun x => x.totalScore)).getD 0)
                   then placeLabel (p + i + 1) else "-" }) := by
  induction data generalizing p prev i with
  | nil => simp [rankLoop]
  | cons e rest ih =>
    cases i with
    | zero => simp [rankLoop]
    | succ j =>
      simp only [rankLoop, List.getElem?_cons_succ]
      rw [ih (p + 1) e.totalScore j]
      cases j with
      | zero => simp
      | succ k =>
        have harith : p + 1 + (k + 1) + 1 = p + (k + 1 + 1) + 1 := by omega
        simp [harith, Nat.add_sub_cancel]

lemma generateRanking_getElem (events : Nat) (data : List Entry) (i : Nat) :
    (generateRanking events data)[i]? =
      (data[i]?).map (fun e =>
        { name := e.name, club := e.club, totalScore := e.totalScore,
          scores := results events e.scores,
          place := if e.totalScore <
                      (if i = 0 then 5001
                       else ((data[i - 1]?).map
                         (fun x => x.totalScore)).getD 0)
                   then placeLabel (i + 1) else "-" }) := by
  have h := rankLoop_getElem events 0 5001 data i
  simpa [generateRanking, Nat.zero_add] using h

lemma results_getElem (events : Nat) (scores : List EventResult) (i : Nat) :
    (results events scores)[i]? =
      (scores[i]?).map (fun result =>
        { eventId := result.eventId, score := result.score,
          place := result.place,
          drop := dropFlag (nonZeroResults events scores) result.score }) := by
  simp [results]

lemma mem_nonZeroResults_of_enough (events : Nat) (scores : List EventResult)
    (hn : (positiveScores scores).length ≤ events) (s : Nat)
    (hs : s ∈ positiveScores scores) : s ∈ nonZeroResults events scores := by
  unfold nonZeroResults
  rw [List.take_of_length_le]
  · exact ((List.perm_insertionSort (fun x y => y ≤ x)
      (positiveScores scores)).mem_iff).mpr hs
  · rw [List.length_insertionSort]
    exact hn

lemma dropFlag_eq_false_of_mem (nonZero : List Nat) (s : Nat)
    (hs : s ∈ nonZero) : dropFlag nonZero (some s) = false := by
  have hc : nonZero.contains s = true := by
    rw [List.contains_eq_any_beq]
    exact List.any_eq_true.mpr ⟨s, hs, by simp⟩
  simp [dropFlag, hc]
  intro h
  exact absurd hs h

lemma drop_false_of_enough (events : Nat) (scores : List EventResult)
    (hn : (positiveScores scores).length ≤ events) :
    ∀ r ∈ results events scores, r.drop = false := by
  intro r hr
  obtain ⟨res, hres, rfl⟩ := List.mem_map.mp hr
  cases hsc : res.score with
  | none => simp [dropFlag, hsc]
  | some s =>
    by_cases hpos : 0 < s
    · have hmem : s ∈ positiveScores scores := by
        refine List.mem_filter.mpr ⟨?_, by simpa using hpos⟩
        exact List.mem_filterMap.mpr ⟨res, hres, hsc⟩
      simp [hsc, dropFlag_eq_false_of_mem _ s
        (mem_nonZeroResults_of_enough events scores hn s hmem)]
    · simp [hsc, dropFlag, hpos]

lemma sum_filter_pos (l : List Nat) :
    (l.filter (fun s => 0 < s)).sum = l.sum := by
  induction l with
  | nil => rfl
  | cons a l ih =>
    by_cases ha : 0 < a
    · simp [List.filter_cons, ha, ih]
    · have : a = 0 := Nat.eq_zero_of_not_pos ha
      simp [List.filter_cons, ha, ih, this]

lemma totalizer_of_enough (events : Nat) (scores : List EventResult)
    (hn : (positiveScores scores).length ≤ events) :
    totalizer events scores = (positiveScores scores).sum := by
  unfold totalizer
  rw [List.filter_eq_self.mpr]
  · have hmap : (results events scores).filterMap (fun r => r.score) =
        scores.filterMap (fun result => result.score) := by
      unfold results
      rw [List.filterMap_map]
      rfl
    rw [hmap]
    unfold positiveScores
    rw [sum_filter_pos]
  · intro r hr
    simp [drop_false_of_enough events scores hn r hr]

lemma totalizer_zero (scores : List EventResult) : totalizer 0 scores = 0 := by
  unfold totalizer
  apply List.sum_eq_zero
  intro x hx
  obtain ⟨r, hr, hscore⟩ := List.mem_filterMap.mp hx
  obtain ⟨hrres, hdrop⟩ := List.mem_filter.mp hr
  obtain ⟨res, hresmem, rfl⟩ := List.mem_map.mp hrres
  by_contra hne
  have hxpos : 0 < x := Nat.pos_of_ne_zero hne
  have hsc : res.score = some x := hscore
  have hdrop' : dropFlag (nonZeroResults 0 scores) res.score = false := by
    simpa using hdrop
  rw [hsc] at hdrop'
  simp [dropFlag, nonZeroResults, hxpos] at hdrop'

lemma generateRanking_mem (events : Nat) (data : List Entry) (x : Entry)
    (hx : x ∈ data) :
    ∃ e, e ∈ generateRanking events data ∧ e.name = x.name ∧
      e.club = x.club ∧ e.totalScore = x.totalScore ∧
      e.scores = results events x.scores := by
  obtain ⟨i, hq⟩ := List.mem_iff_getElem?.mp hx
  have hg := generateRanking_getElem events data i
  rw [hq] at hg
  exact ⟨_, List.getElem?_mem hg, rfl, rfl, rfl, rfl⟩

lemma mem_sortByTotalDesc (standing : List Entry) (x : Entry)
    (hx : x ∈ standing) : x ∈ sortByTotalDesc standing := by
  unfold sortByTotalDesc
  exact ((List.perm_insertionSort (fun a b => b.totalScore ≤ a.totalScore)
    standing).mem_iff).mpr hx

lemma engine_mem (events : Nat) (raw : List AthleteRawEntry)
    (a : AthleteRawEntry) (ha : a ∈ raw) :
    ∃ e, e ∈ engine events raw ∧ e.name = a.name ∧ e.club = a.club ∧
      e.totalScore = totalizer events a.scores ∧
      e.scores = results events a.scores := by
  have h1 : toEntry events a ∈ raw.map (toEntry events) :=
    List.mem_map_of_mem (toEntry events) ha
  have h2 : toEntry events a ∈ sortByTotalDesc (raw.map (toEntry events)) :=
    mem_sortByTotalDesc _ _ h1
  exact generateRanking_mem events _ (toEntry events a) h2

lemma sortByTotalDesc_sorted (standing : List Entry) :
    List.Sorted (fun a b => b.totalScore ≤ a.totalScore)
      (sortByTotalDesc standing) :=
  List.sorted_insertionSort (fun a b => b.totalScore ≤ a.totalScore) standing

/-- C1 (counterexample): on athletes with totals 40, 40, 30 the display
places produced by `generateRanking` are "1.", "-", "3." and not the
claimed "1.", "-", "2.": the position counter consumed by the tied second
entry makes the third entry's label "3.", the true one-based count of
entries above it plus one. -/
theorem c1_tie_rule_counterexample :
    (generateRanking 5
        [⟨"A", "ca", 40, []⟩, ⟨"B", "cb", 40, []⟩, ⟨"C", "cc", 30, []⟩]).map
      (fun e => e.place) ≠ ["1.", "-", "2."] ∧
    (generateRanking 5
        [⟨"A", "ca", 40, []⟩, ⟨"B", "cb", 40, []⟩, ⟨"C", "cc", 30, []⟩]).map
      (fun e => e.place) = ["1.", "-", "3."] := by
  constructor
  · decide
  · decide

/-- C1 (amended): the rank assigner walks the list with a position counter
incremented for every entry; the entry at zero-based index `i + 1` gets the
counter value `i + 2` rendered as a numeric label when its total is strictly
below the previous entry's total, and the tie marker "-" when the totals are
equal, the counter being consumed either way. (For totals 40, 40, 30 this
yields places "1.", "-", "3.".) -/
theorem c1_tie_rule (events : Nat) (data : List Entry) (i : Nat)
    (a b : Entry) (ha : data[i]? = some a) (hb : data[i + 1]? = some b) :
    (b.totalScore < a.totalScore →
      ((generateRanking events data)[i + 1]?).map (fun e => e.place) =
        some (placeLabel (i + 2))) ∧
    (b.totalScore = a.totalScore →
      ((generateRanking events data)[i + 1]?).map (fun e => e.place) =
        some "-") := by
  have hg := generateRanking_getElem events data (i + 1)
  rw [hb] at hg
  simp only [Option.map_some'] at hg
  have hprev : (if i + 1 = 0 then 5001
      else ((data[i + 1 - 1]?).map (fun x => x.totalScore)).getD 0) =
      a.totalScore := by
    simp [Nat.add_sub_cancel, ha]
  rw [hprev] at hg
  have harith : i + 1 + 1 = i + 2 := by omega
  rw [harith] at hg
  constructor
  · intro hlt
    rw [hg]
    simp [hlt]
  · intro heq
    rw [hg]
    simp [heq]

/-- C1 (witness): instantiating the tie rule on the third entry of the
40, 40, 30 example yields the numeric label "3.". -/
theorem c1_tie_rule_witness :
    ((generateRanking 5
        [⟨"A", "ca", 40, []⟩, ⟨"B", "cb", 40, []⟩, ⟨"C", "cc", 30, []⟩])[2]?).map
      (fun e => e.place) = some (placeLabel 3) :=
  (c1_tie_rule 5
    [⟨"A", "ca", 40, []⟩, ⟨"B", "cb", 40, []⟩, ⟨"C", "cc", 30, []⟩] 1
    ⟨"B", "cb", 40, []⟩ ⟨"C", "cc", 30, []⟩ (by decide) (by decide)).1
    (by decide)

/-- C2: for every input, adjacent entries of the engine's output standing
have non-increasing totals: the total of the entry at index `i + 1` is at
most the total of the entry at index `i`. -/
theorem c2_output_sorted_desc (events : Nat) (raw : List AthleteRawEntry)
    (i : Nat) (a b : CupStandingEntry)
    (ha : (engine events raw)[i]? = some a)
    (hb : (engine events raw)[i + 1]? = some b) :
    b.totalScore ≤ a.totalScore := by
  have hs := sortByTotalDesc_sorted (raw.map (toEntry events))
  have ha' : (generateRanking events
      (sortByTotalDesc (raw.map (toEntry events))))[i]? = some a := ha
  have hb' : (generateRanking events
      (sortByTotalDesc (raw.map (toEntry events))))[i + 1]? = some b := hb
  rw [generateRanking_getElem] at ha' hb'
  cases hx : (sortByTotalDesc (raw.map (toEntry events)))[i]? with
  | none => rw [hx] at ha'; simp at ha'
  | some x =>
    cases hy : (sortByTotalDesc (raw.map (toEntry events)))[i + 1]? with
    | none => rw [hy] at hb'; simp at hb'
    | some y =>
      rw [hx] at ha'
      rw [hy] at hb'
      simp only [Option.map_some'] at ha' hb'
      have hax := Option.some_inj.mp ha'
      have hby := Option.some_inj.mp hb'
      have hat : a.totalScore = x.totalScore := by rw [← hax]
      have hbt : b.totalScore = y.totalScore := by rw [← hby]
      obtain ⟨hix, hxeq⟩ := List.getElem?_eq_some_iff.mp hx
      obtain ⟨hiy, hyeq⟩ := List.getElem?_eq_some_iff.mp hy
      have hrel := List.Sorted.rel_get_of_lt hs
        (a := ⟨i, hix⟩) (b := ⟨i + 1, hiy⟩) (by simp [Fin.lt_def])
      have hx' : (sortByTotalDesc (raw.map (toEntry events))).get ⟨i, hix⟩ =
          x := by rw [List.get_eq_getElem]; exact hxeq
      have hy' : (sortByTotalDesc (raw.map (toEntry events))).get
          ⟨i + 1, hiy⟩ = y := by rw [List.get_eq_getElem]; exact hyeq
      rw [hx', hy'] at hrel
      rw [hat, hbt]
      exact hrel

/-- C2 (witness): on two athletes supplied in ascending order of their
totals (0 then 10), the engine outputs them descending, and the adjacent
totals satisfy the inequality. -/
theorem c2_output_sorted_desc_witness :
    (engine 3 [⟨"B", "d", []⟩, ⟨"A", "c", [⟨1, some 10, some 1⟩]⟩])[0]? =
      some ⟨"A", "c", 10, [⟨1, some 10, some 1, false⟩], "1."⟩ ∧
    (engine 3 [⟨"B", "d", []⟩, ⟨"A", "c", [⟨1, some 10, some 1⟩]⟩])[1]? =
      some ⟨"B", "d", 0, [], "2."⟩ ∧
    (0 : Nat) ≤ 10 := by
  refine ⟨by decide, by decide, ?_⟩
  exact c2_output_sorted_desc 3
    [⟨"B", "d", []⟩, ⟨"A", "c", [⟨1, some 10, some 1⟩]⟩] 0
    ⟨"A", "c", 10, [⟨1, some 10, some 1, false⟩], "1."⟩
    ⟨"B", "d", 0, [], "2."⟩ (by decide) (by decide)

/-- C3: when `N` is at least the number of an athlete's positive scores,
the athlete's entry in the engine output has no result marked dropped and
its total equals the sum of all the athlete's positive scores. -/
theorem c3_enough_events_no_drops (events : Nat) (raw : List AthleteRawEntry)
    (a : AthleteRawEntry) (hmem : a ∈ raw)
    (hn : (positiveScores a.scores).length ≤ events) :
    ∃ e, e ∈ engine events raw ∧ e.name = a.name ∧ e.club = a.club ∧
      (∀ r ∈ e.scores, r.drop = false) ∧
      e.totalScore = (positiveScores a.scores).sum := by
  obtain ⟨e, hein, hname, hclub, htot, hsc⟩ := engine_mem events raw a hmem
  refine ⟨e, hein, hname, hclub, ?_, ?_⟩
  · intro r hr
    rw [hsc] at hr
    exact drop_false_of_enough events a.scores hn r hr
  · rw [htot]
    exact totalizer_of_enough events a.scores hn

/-- C3 (witness): one athlete with a single positive score 5 and `N = 2`:
nothing is dropped and the total is 5. -/
theorem c3_enough_events_no_drops_witness :
    (⟨"A", "c", [⟨1, some 5, some 1⟩]⟩ : AthleteRawEntry) ∈
      ([⟨"A", "c", [⟨1, some 5, some 1⟩]⟩] : List AthleteRawEntry) ∧
    (positiveScores [⟨1, some 5, some 1⟩]).length ≤ 2 ∧
    ∃ e, e ∈ engine 2 [⟨"A", "c", [⟨1, some 5, some 1⟩]⟩] ∧
      e.name = "A" ∧ e.club = "c" ∧ (∀ r ∈ e.scores, r.drop = false) ∧
      e.totalScore = (positiveScores [⟨1, some 5, some 1⟩]).sum :=
  ⟨by decide, by decide,
    c3_enough_events_no_drops 2 [⟨"A", "c", [⟨1, some 5, some 1⟩]⟩]
      ⟨"A", "c", [⟨1, some 5, some 1⟩]⟩ (by decide) (by decide)⟩

/-- C4: with `N = 0` every positive-scored result of an athlete's entry in
the engine output is marked dropped and the entry's total is 0. -/
theorem c4_n_zero_drops_all (raw : List AthleteRawEntry)
    (a : AthleteRawEntry) (hmem : a ∈ raw) :
    ∃ e, e ∈ engine 0 raw ∧ e.name = a.name ∧ e.club = a.club ∧
      (∀ r ∈ e.scores, (∃ s, r.score = some s ∧ 0 < s) → r.drop = true) ∧
      e.totalScore = 0 := by
  obtain ⟨e, hein, hname, hclub, htot, hsc⟩ := engine_mem 0 raw a hmem
  refine ⟨e, hein, hname, hclub, ?_, ?_⟩
  · intro r hr hex
    obtain ⟨s, hs, hpos⟩ := hex
    rw [hsc] at hr
    obtain ⟨res, hres, rfl⟩ := List.mem_map.mp hr
    have hressc : res.score = some s := hs
    simp [dropFlag, nonZeroResults, hressc, hpos]
  · rw [htot]
    exact totalizer_zero a.scores

/-- C4 (witness): one athlete with a positive score 7 under `N = 0`: the
result is dropped and the total is 0. -/
theorem c4_n_zero_drops_all_witness :
    (⟨"A", "c", [⟨1, some 7, some 1⟩]⟩ : AthleteRawEntry) ∈
      ([⟨"A", "c", [⟨1, some 7, some 1⟩]⟩] : List AthleteRawEntry) ∧
    ∃ e, e ∈ engine 0 [⟨"A", "c", [⟨1, some 7, some 1⟩]⟩] ∧
      e.name = "A" ∧ e.club = "c" ∧
      (∀ r ∈ e.scores, (∃ s, r.score = some s ∧ 0 < s) → r.drop = true) ∧
      e.totalScore = 0 :=
  ⟨by decide,
    c4_n_zero_drops_all [⟨"A", "c", [⟨1, some 7, some 1⟩]⟩]
      ⟨"A", "c", [⟨1, some 7, some 1⟩]⟩ (by decide)⟩

/-- C5: selection is by score value: a result whose score value occurs among
the retained top-N values (`nonZeroResults`) is not marked dropped, so all
results sharing the value at the Nth boundary are retained. -/
theorem c5_selection_by_value (events : Nat) (scores : List EventResult)
    (i : Nat) (r : EventResult) (hr : scores[i]? = some r) (s : Nat)
    (hs : r.score = some s) (hmem : s ∈ nonZeroResults events scores) :
    ((results events scores)[i]?).map (fun x => x.drop) = some false := by
  rw [results_getElem, hr]
  simp [hs, dropFlag_eq_false_of_mem (nonZeroResults events scores) s hmem]

/-- C5 (witness): scores 100, 90, 90, 80 with `N = 2`: the retained values
are [100, 90], the second 90 (index 2) is kept because its value is
retained, and three results survive although `N = 2`. -/
theorem c5_selection_by_value_witness :
    90 ∈ nonZeroResults 2 [⟨1, some 100, none⟩, ⟨2, some 90, none⟩,
      ⟨3, some 90, none⟩, ⟨4, some 80, none⟩] ∧
    ((results 2 [⟨1, some 100, none⟩, ⟨2, some 90, none⟩,
      ⟨3, some 90, none⟩, ⟨4, some 80, none⟩])[2]?).map (fun x => x.drop) =
      some false ∧
    ((results 2 [⟨1, some 100, none⟩, ⟨2, some 90, none⟩,
      ⟨3, some 90, none⟩, ⟨4, some 80, none⟩]).filter
        (fun x => !x.drop)).length = 3 :=
  ⟨by decide,
    c5_selection_by_value 2 [⟨1, some 100, none⟩, ⟨2, some 90, none⟩,
      ⟨3, some 90, none⟩, ⟨4, some 80, none⟩] 2 ⟨3, some 90, none⟩
      (by decide) 90 rfl (by decide),
    by decide⟩

/-- C6: a result whose score is absent or zero is never marked dropped, and
the engine keeps every athlete in the standing (the output has one entry per
input athlete, so an all-zero athlete still appears). -/
theorem c6_zero_scores_never_dropped :
    (∀ (events : Nat) (scores : List EventResult) (i : Nat)
        (r : EventResult), scores[i]? = some r →
        (r.score = none ∨ r.score = some 0) →
        ((results events scores)[i]?).map (fun x => x.drop) = some false) ∧
    (∀ (events : Nat) (raw : List AthleteRawEntry),
        (engine events raw).length = raw.length) := by
  constructor
  · intro events scores i r hr hz
    rw [results_getElem, hr]
    cases hz with
    | inl h => simp [h, dropFlag]
    | inr h => simp [h, dropFlag]
  · intro events raw
    unfold engine sortByTotalDesc
    rw [generateRanking_length, List.length_insertionSort, List.length_map]

/-- C6 (witness): a zero score under `N = 4` is not dropped, and an
all-zero athlete still yields an output entry. -/
theorem c6_zero_scores_never_dropped_witness :
    (([⟨1, some 0, none⟩] : List EventResult))[0]? =
      some ⟨1, some 0, none⟩ ∧
    ((results 4 [⟨1, some 0, none⟩])[0]?).map (fun x => x.drop) =
      some false ∧
    (engine 3 [⟨"A", "c", [⟨1, some 0, none⟩]⟩]).length = 1 :=
  ⟨by decide,
    c6_zero_scores_never_dropped.1 4 [⟨1, some 0, none⟩] 0
      ⟨1, some 0, none⟩ (by decide) (Or.inr rfl),
    c6_zero_scores_never_dropped.2 3 [⟨"A", "c", [⟨1, some 0, none⟩]⟩]⟩

/-- C7 (counterexample): the tie-tracking value is initialized to 5001,
which is not above every possible total: a first entry with total 5001 gets
the tie marker "-" instead of the claimed "1.". -/
theorem c7_sentinel_counterexample :
    ((generateRanking 3 [⟨"A", "c", 5001, []⟩])[0]?).map
      (fun e => e.place) = some "-" ∧ ("-" : String) ≠ "1." := by
  constructor
  · decide
  · decide

/-- C7 (amended): the tie-tracking comparison value is initialized to the
constant 5001, so for every non-empty input the first entry's display place
is "1." exactly when its total score is below 5001, and the tie marker "-"
when its total is 5001 or more. -/
theorem c7_first_entry_place (events : Nat) (e : Entry)
    (rest : List Entry) :
    (e.totalScore < 5001 →
      ((generateRanking events (e :: rest))[0]?).map (fun x => x.place) =
        some "1.") ∧
    (5001 ≤ e.totalScore →
      ((generateRanking events (e :: rest))[0]?).map (fun x => x.place) =
        some "-") := by
  have hg := generateRanking_getElem events (e :: rest) 0
  rw [List.getElem?_cons_zero] at hg
  simp only [Option.map_some'] at hg
  constructor
  · intro h
    rw [hg]
    simp [h]
    decide
  · intro h
    have hnot : ¬ e.totalScore < 5001 := Nat.not_lt.mpr h
    rw [hg]
    simp [hnot]

/-- C7 (witness): a first entry with total 40 (below the sentinel) gets
place "1.". -/
theorem c7_first_entry_place_witness :
    (40 : Nat) < 5001 ∧
    ((generateRanking 2 [⟨"A", "c", 40, []⟩])[0]?).map (fun x => x.place) =
      some "1." :=
  ⟨by decide, (c7_first_entry_place 2 ⟨"A", "c", 40, []⟩ []).1 (by decide)⟩

/-- C8: a negative `N` is rejected at the request level: `handleRequest`
returns the `invalidInput` failure and never a normal standing, so the
failure is distinguishable from the valid empty-standing result. -/
theorem c8_negative_n_rejected (events : Int) (raw : List AthleteRawEntry)
    (h : events < 0) :
    handleRequest events raw = Except.error EngineError.invalidInput ∧
    ∀ standing, handleRequest events raw ≠ Except.ok standing := by
  constructor
  · simp [handleRequest, h]
  · intro standing
    simp [handleRequest, h]

/-- C8 (witness): `N = -1` is rejected while `N = 0` on no athletes yields
the valid empty standing. -/
theorem c8_negative_n_rejected_witness :
    ((-1 : Int) < 0) ∧
    handleRequest (-1) [] = Except.error EngineError.invalidInput ∧
    handleRequest 0 [] = Except.ok [] :=
  ⟨by decide, (c8_negative_n_rejected (-1) [] (by decide)).1, rfl⟩

/-- C9: the engine is deterministic: two runs on identical input produce
the same standing, entry order, totals, place labels and drop flags. -/
theorem c9_deterministic (events : Nat) (raw : List AthleteRawEntry)
    (out1 out2 : List CupStandingEntry)
    (h1 : out1 = engine events raw) (h2 : out2 = engine events raw) :
    out1 = out2 ∧
    out1.map (fun e => e.place) = out2.map (fun e => e.place) ∧
    out1.map (fun e => e.totalScore) = out2.map (fun e => e.totalScore) ∧
    out1.map (fun e => e.scores.map (fun r => r.drop)) =
      out2.map (fun e => e.scores.map (fun r => r.drop)) := by
  subst h1
  subst h2
  exact ⟨rfl, rfl, rfl, rfl⟩

/-- C9 (witness): two runs on a concrete input coincide. -/
theorem c9_deterministic_witness :
    engine 1 [⟨"A", "c", [⟨1, some 3, some 2⟩]⟩] =
      engine 1 [⟨"A", "c", [⟨1, some 3, some 2⟩]⟩] :=
  (c9_deterministic 1 [⟨"A", "c", [⟨1, some 3, some 2⟩]⟩]
    (engine 1 [⟨"A", "c", [⟨1, some 3, some 2⟩]⟩])
    (engine 1 [⟨"A", "c", [⟨1, some 3, some 2⟩]⟩]) rfl rfl).1

/-- C10: `generateRanking` only adds the display place and the drop flags:
the entry at each index keeps its input name, club and total score, and its
results keep, in input order, their event identifiers, scores and
single-event placings. -/
theorem c10_frame_preservation (events : Nat) (data : List Entry)
    (i : Nat) (a : Entry) (ha : data[i]? = some a) :
    ∃ e, (generateRanking events data)[i]? = some e ∧
      e.name = a.name ∧ e.club = a.club ∧ e.totalScore = a.totalScore ∧
      e.scores.map (fun r => r.eventId) =
        a.scores.map (fun r => r.eventId) ∧
      e.scores.map (fun r => r.score) = a.scores.map (fun r => r.score) ∧
      e.scores.map (fun r => r.place) = a.scores.map (fun r => r.place) := by
  have hg := generateRanking_getElem events data i
  rw [ha] at hg
  simp only [Option.map_some'] at hg
  refine ⟨_, hg, rfl, rfl, rfl, ?_, ?_, ?_⟩ <;>
    simp [results, List.map_map]

/-- C10 (witness): a concrete entry keeps its identity, total and per-event
fields through `generateRanking`. -/
theorem c10_frame_preservation_witness :
    (([⟨"A", "c", 9, [⟨1, some 9, some 1⟩, ⟨2, none, none⟩]⟩] :
      List Entry))[0]? =
      some ⟨"A", "c", 9, [⟨1, some 9, some 1⟩, ⟨2, none, none⟩]⟩ ∧
    ∃ e, (generateRanking 1
        [⟨"A", "c", 9, [⟨1, some 9, some 1⟩, ⟨2, none, none⟩]⟩])[0]? =
        some e ∧
      e.name = "A" ∧ e.club = "c" ∧ e.totalScore = 9 ∧
      e.scores.map (fun r => r.eventId) = [1, 2] ∧
      e.scores.map (fun r => r.score) = [some 9, none] ∧
      e.scores.map (fun r => r.place) = [some 1, none] :=
  ⟨by decide,
    c10_frame_preservation 1
      [⟨"A", "c", 9, [⟨1, some 9, some 1⟩, ⟨2, none, none⟩]⟩] 0
      ⟨"A", "c", 9, [⟨1, some 9, some 1⟩, ⟨2, none, none⟩]⟩ (by decide)⟩
